import Mathlib

/-!
Verification of the Flask backend `app.py` of the Mental Health Trends
Dashboard repository.

The handler `get_dashboard` is embedded shallowly:

* calendar dates (Python `datetime`) become a `Date` structure with the
  proleptic-Gregorian ordinal `toOrdinal` (CPython's `date.toordinal`),
  calendar successor `nextDay` and predecessor `prevDay`;
  `start + timedelta(days=i)` is modelled as `nextDay^[i] start` and
  `datetime.now() - timedelta(days=30)` as `prevDay^[30] today`;
  `(end - start).days` is the difference of ordinals;
* `datetime.strptime(s, '%Y-%m-%d')` becomes `parseDate` (the exact
  regex `_strptime` uses: four year digits, `1[0-2]|0[1-9]|[1-9]` for the
  month, `3[01]|[12]\d|0[1-9]|[1-9]` for the day, full match), followed by
  the `datetime` constructor's range validation;
* `strftime('%Y-%m-%d')` becomes `formatDate` (zero-padded fields);
* the process-wide random generator becomes an oracle structure `RNG`
  whose guarantees (`random.random()` in `[0,1)`, `randint(1,10)` in
  `[1,10]`, `sample(nodes,2)` two distinct indices) form `RNG.Valid`;
* the only failure path (a `ValueError` escaping from `strptime`) becomes
  the `Except.error` branch of `get_dashboard`.
-/

/-- A calendar date, as CPython's `datetime.date` stores it. -/
structure Date where
  year : Nat
  month : Nat
  day : Nat
deriving DecidableEq, Repr

/-- CPython `_is_leap`. -/
def isLeap (y : Nat) : Bool :=
  (y % 4 == 0 && y % 100 != 0) || y % 400 == 0

/-- 1 on leap years, 0 otherwise. -/
def leapN (y : Nat) : Nat := if isLeap y then 1 else 0

/-- CPython `_days_in_month` (month out of range gives 0 here; such dates
are never valid). -/
def daysInMonth (y m : Nat) : Nat :=
  match m with
  | 1 => 31
  | 2 => if isLeap y then 29 else 28
  | 3 => 31
  | 4 => 30
  | 5 => 31
  | 6 => 30
  | 7 => 31
  | 8 => 31
  | 9 => 30
  | 10 => 31
  | 11 => 30
  | 12 => 31
  | _ => 0

/-- CPython `_days_before_month`: days in the year strictly before month `m`. -/
def daysBeforeMonth (y m : Nat) : Nat :=
  match m with
  | 1 => 0
  | 2 => 31
  | 3 => 59 + leapN y
  | 4 => 90 + leapN y
  | 5 => 120 + leapN y
  | 6 => 151 + leapN y
  | 7 => 181 + leapN y
  | 8 => 212 + leapN y
  | 9 => 243 + leapN y
  | 10 => 273 + leapN y
  | 11 => 304 + leapN y
  | 12 => 334 + leapN y
  | _ => 0

/-- CPython `_days_before_year`. -/
def daysBeforeYear (y : Nat) : Nat :=
  365 * (y - 1) + (y - 1) / 4 - (y - 1) / 100 + (y - 1) / 400

/-- CPython `date.toordinal`: day 1 is January 1 of year 1. -/
def toOrdinal (d : Date) : Nat :=
  daysBeforeYear d.year + daysBeforeMonth d.year d.month + d.day

/-- The validity check performed by the `datetime` constructor (we leave the
year unbounded above; parsed dates always have `year ≤ 9999`). -/
def Date.Valid (d : Date) : Prop :=
  1 ≤ d.year ∧ 1 ≤ d.month ∧ d.month ≤ 12 ∧ 1 ≤ d.day ∧ d.day ≤ daysInMonth d.year d.month

instance : DecidablePred Date.Valid := fun d => by
  unfold Date.Valid
  infer_instance

/-- The calendar successor of a date (semantics of `+ timedelta(days=1)`). -/
def nextDay (d : Date) : Date :=
  if d.day < daysInMonth d.year d.month then ⟨d.year, d.month, d.day + 1⟩
  else if d.month < 12 then ⟨d.year, d.month + 1, 1⟩
  else ⟨d.year + 1, 1, 1⟩

/-- The calendar predecessor of a date (semantics of `- timedelta(days=1)`). -/
def prevDay (d : Date) : Date :=
  if 1 < d.day then ⟨d.year, d.month, d.day - 1⟩
  else if 1 < d.month then ⟨d.year, d.month - 1, daysInMonth d.year (d.month - 1)⟩
  else ⟨d.year - 1, 12, 31⟩

/-- A decimal digit character (`\d` of the strptime regex). -/
def isDig (c : Char) : Bool := 48 ≤ c.toNat && c.toNat ≤ 57

/-- Numeric value of a digit character. -/
def digitVal (c : Char) : Nat := c.toNat - 48

/-- The digit character for `n ≤ 9`. -/
def digitChar (n : Nat) : Char := Char.ofNat (48 + n)

/-- Two zero-padded decimal digits, as `%m`/`%d` of `strftime` emit. -/
def format2 (n : Nat) : List Char := [digitChar (n / 10 % 10), digitChar (n % 10)]

/-- Four zero-padded decimal digits, as `%Y` of `strftime` emits for the
years a parsed request can denote. -/
def format4 (n : Nat) : List Char :=
  [digitChar (n / 1000 % 10), digitChar (n / 100 % 10), digitChar (n / 10 % 10),
    digitChar (n % 10)]

/-- `strftime('%Y-%m-%d')`. -/
def formatDate (d : Date) : String :=
  ⟨format4 d.year ++ '-' :: format2 d.month ++ '-' :: format2 d.day⟩

/-- The month field of the strptime regex, `(?:1[0-2]|0[1-9]|[1-9])`
followed by the literal `-`; returns the month and the remaining input.
(The regex alternation never needs to backtrack from a two-digit match to a
one-digit one, because the one-digit alternative requires the following
character to be `-` while the two-digit ones require it to be a digit, so
the first-match translation below is exact.) -/
def parseMonth (cs : List Char) : Option (Nat × List Char) :=
  match cs with
  | a :: '-' :: rest =>
    if isDig a && a != '0' then some (digitVal a, rest) else none
  | a :: b :: '-' :: rest =>
    if a = '1' && (b = '0' || b = '1' || b = '2') then some (10 + digitVal b, rest)
    else if a = '0' && (isDig b && b != '0') then some (digitVal b, rest)
    else none
  | _ => none

/-- The day field of the strptime regex, `(?:3[01]|[12]\d|0[1-9]|[1-9])`,
anchored at the end of the input (strptime rejects unconsumed characters). -/
def parseDay (cs : List Char) : Option Nat :=
  match cs with
  | [a] => if isDig a && a != '0' then some (digitVal a) else none
  | [a, b] =>
    if a = '3' && (b = '0' || b = '1') then some (30 + digitVal b)
    else if (a = '1' || a = '2') && isDig b then some (10 * digitVal a + digitVal b)
    else if a = '0' && (isDig b && b != '0') then some (digitVal b)
    else none
  | _ => none

/-- The full `%Y-%m-%d` strptime match: exactly four year digits, a literal
`-`, the month field, a literal `-`, the day field, end of input. -/
def parseYMD (cs : List Char) : Option (Nat × Nat × Nat) :=
  match cs with
  | a :: b :: c :: d :: '-' :: rest =>
    if isDig a && isDig b && isDig c && isDig d then
      match parseMonth rest with
      | some (m, rest2) =>
        match parseDay rest2 with
        | some dd =>
          some (((digitVal a * 10 + digitVal b) * 10 + digitVal c) * 10 + digitVal d, m, dd)
        | none => none
      | none => none
    else none
  | _ => none

/-- `datetime.strptime(s, '%Y-%m-%d')`: the regex match followed by the
constructor's range checks; `none` is the `ValueError`. -/
def parseDate (s : String) : Option Date :=
  match parseYMD s.data with
  | some (y, m, d) =>
    if 1 ≤ y ∧ 1 ≤ m ∧ m ≤ 12 ∧ 1 ≤ d ∧ d ≤ daysInMonth y m then some ⟨y, m, d⟩
    else none
  | none => none

/-- The draws the handler takes from the process-wide random generator,
split by the (deterministic) program point that consumes them: per day `i`
one uniform draw for `count`, `anxiety`, `sadness`, `joy` each; per node
`i` one `randint(1,10)` and one uniform draw; per edge `i` one
`random.sample(nodes, 2)` (modelled by the pair of sampled node indices)
and one uniform draw. -/
structure RNG where
  uBase : Nat → ℝ
  uAnx : Nat → ℝ
  uSad : Nat → ℝ
  uJoy : Nat → ℝ
  deg : Nat → Nat
  uSent : Nat → ℝ
  pair : Nat → Nat × Nat
  uEdge : Nat → ℝ

/-- The guarantees of the `random` module: `random.random()` lies in
`[0,1)`, `randint(1,10)` in `[1,10]`, and `sample(nodes, 2)` returns two
distinct elements of the 40-element node list. -/
def RNG.Valid (g : RNG) : Prop :=
  (∀ n, 0 ≤ g.uBase n ∧ g.uBase n < 1) ∧
  (∀ n, 0 ≤ g.uAnx n ∧ g.uAnx n < 1) ∧
  (∀ n, 0 ≤ g.uSad n ∧ g.uSad n < 1) ∧
  (∀ n, 0 ≤ g.uJoy n ∧ g.uJoy n < 1) ∧
  (∀ n, 1 ≤ g.deg n ∧ g.deg n ≤ 10) ∧
  (∀ n, 0 ≤ g.uSent n ∧ g.uSent n < 1) ∧
  (∀ n, (g.pair n).1 < 40 ∧ (g.pair n).2 < 40 ∧ (g.pair n).1 ≠ (g.pair n).2) ∧
  (∀ n, 0 ≤ g.uEdge n ∧ g.uEdge n < 1)

/-- Python `round`: nearest integer, ties to the even one. -/
noncomputable def pyRound (x : ℝ) : ℤ :=
  if x - ⌊x⌋ < 1 / 2 then ⌊x⌋
  else if 1 / 2 < x - ⌊x⌋ then ⌊x⌋ + 1
  else if Even ⌊x⌋ then ⌊x⌋ else ⌊x⌋ + 1

/-- One element of the `time_series` list. -/
structure TimeSeriesPoint where
  date : String
  count : ℤ
  anxiety : ℝ
  sadness : ℝ
  joy : ℝ

/-- One element of the `topics` list. -/
structure TopicTrend where
  topic : String
  changePct : ℝ
  mentions : Nat

/-- One element of the `emotions` list. -/
structure EmotionShare where
  name : String
  value : ℝ

/-- One element of the `nodes` list. -/
structure GraphNode where
  id : String
  deg : Nat
  sentiment : ℝ

/-- One element of the `links` list. -/
structure GraphEdge where
  source : String
  target : String
  value : ℝ

/-- The `graph` object of the response. -/
structure Graph where
  nodes : List GraphNode
  links : List GraphEdge

/-- The `meta` object of the response; `fromDate`/`toDate` are the JSON
keys `from`/`to`. -/
structure Meta where
  fromDate : String
  toDate : String
  platform : String

/-- The JSON object `get_dashboard` returns. -/
structure Response where
  timeSeries : List TimeSeriesPoint
  topics : List TopicTrend
  emotions : List EmotionShare
  graph : Graph
  meta : Meta

/-- The static `topics` literal of `app.py`. -/
def staticTopics : List TopicTrend :=
  [⟨"exam stress", 0.22, 420⟩, ⟨"job market anxiety", 0.12, 320⟩,
    ⟨"sleep issues", 0.08, 210⟩, ⟨"financial pressure", 0.05, 150⟩]

/-- The static `emotions` literal of `app.py`. -/
def staticEmotions : List EmotionShare :=
  [⟨"sadness", 0.38⟩, ⟨"anger", 0.12⟩, ⟨"fear", 0.18⟩, ⟨"joy", 0.10⟩,
    ⟨"neutral", 0.22⟩]

/-- The time-series point the loop body builds for offset `i`
(`d = start + timedelta(days=i)` and the four formulas of lines 32-35). -/
noncomputable def mkPoint (start : Date) (g : RNG) (i : Nat) : TimeSeriesPoint :=
  { date := formatDate (nextDay^[i] start)
    count := pyRound (200 + 40 * Real.sin ((i : ℝ) / 6) + g.uBase i * 60)
    anxiety := max 0 ((Real.sin ((i : ℝ) / 7 + 0.5) + g.uAnx i * 0.6) / 2)
    sadness := max 0 ((Real.cos ((i : ℝ) / 8) + g.uSad i * 0.6) / 2)
    joy := max 0 ((Real.cos ((i : ℝ) / 5 + 1) + g.uJoy i * 0.6) / 2) }

/-- The id `f"user_{i}"`. -/
def userId (i : Nat) : String := "user_" ++ toString i

/-- The node built for loop index `i` (line 57). -/
def mkNode (g : RNG) (i : Nat) : GraphNode :=
  { id := userId i
    deg := g.deg i
    sentiment := (g.uSent i - 0.5) * 1.6 }

/-- The link built for loop index `i` (lines 59-60): `a, b =
random.sample(nodes, 2)` is the pair of sampled node indices, and node `j`
has id `user_j`. -/
def mkLink (g : RNG) (i : Nat) : GraphEdge :=
  { source := userId (g.pair i).1
    target := userId (g.pair i).2
    value := g.uEdge i }

/-- Lines 26-67 of `app.py` once both dates have parsed: `days` is
`(end - start).days + 1`; `range(days)` of a non-positive count is empty,
which `Int.toNat` mirrors. -/
noncomputable def buildResponse (start endD : Date) (start_date end_date platform : String)
    (g : RNG) : Response :=
  { timeSeries :=
      (List.range ((toOrdinal endD : ℤ) - (toOrdinal start : ℤ) + 1).toNat).map
        (mkPoint start g)
    topics := staticTopics
    emotions := staticEmotions
    graph :=
      { nodes := (List.range 40).map (mkNode g)
        links := (List.range 80).map (mkLink g) }
    meta := ⟨start_date, end_date, platform⟩ }

/-- The handler `get_dashboard`. `fromQ`/`toQ`/`platformQ` are the query
parameters (absent = `none`), `today` is the calendar date of
`datetime.now()`, `g` the random generator. A `ValueError` escaping from
`strptime` (which Flask turns into a generic 500 response) is the
`Except.error` branch. -/
noncomputable def get_dashboard (fromQ toQ platformQ : Option String) (today : Date)
    (g : RNG) : Except String Response :=
  let start_date := fromQ.getD (formatDate (prevDay^[30] today))
  let end_date := toQ.getD (formatDate today)
  let platform := platformQ.getD "twitter"
  match parseDate start_date with
  | none => Except.error "ValueError: time data does not match format %Y-%m-%d"
  | some start =>
    match parseDate end_date with
    | none => Except.error "ValueError: time data does not match format %Y-%m-%d"
    | some endD => Except.ok (buildResponse start endD start_date end_date platform g)


/-- Unfolding of the leap-year test. -/
theorem isLeap_iff (y : Nat) :
    isLeap y = true ↔ (y % 4 = 0 ∧ y % 100 ≠ 0) ∨ y % 400 = 0 := by
  simp [isLeap]

/-- Every month of the calendar has at least one day. -/
theorem daysInMonth_pos (y m : Nat) (h1 : 1 ≤ m) (h2 : m ≤ 12) :
    1 ≤ daysInMonth y m := by
  interval_cases m <;> simp only [daysInMonth] <;> (try split) <;> omega

/-- A valid date's day is at most 31. -/
theorem valid_day_le_31 (d : Date) (h : d.Valid) : d.day ≤ 31 := by
  obtain ⟨h1, h2, h3, h4, h5⟩ := h
  interval_cases hm : d.month <;>
    simp only [daysInMonth] at h5 <;> (try split at h5) <;> omega

/-- `daysBeforeMonth` absorbs the previous month's length. -/
theorem dbm_succ (y m : Nat) (h1 : 1 ≤ m) (h2 : m ≤ 11) :
    daysBeforeMonth y (m + 1) = daysBeforeMonth y m + daysInMonth y m := by
  interval_cases m <;> by_cases h : isLeap y = true <;>
    simp [daysBeforeMonth, daysInMonth, leapN, h] <;> omega

/-- `daysBeforeMonth` is monotone from a month to any later month. -/
theorem dbm_add (y m j : Nat) (h1 : 1 ≤ m) (h : m + j ≤ 12) :
    daysBeforeMonth y m ≤ daysBeforeMonth y (m + j) := by
  induction j with
  | zero => exact le_refl _
  | succ k ih =>
    have hk := ih (by omega)
    have hs := dbm_succ y (m + k) (by omega) (by omega)
    have hp := daysInMonth_pos y (m + k) (by omega) (by omega)
    have he : m + (k + 1) = (m + k) + 1 := by omega
    rw [he, hs]
    omega

/-- `daysBeforeMonth` is monotone over the calendar months. -/
theorem dbm_le (y m m' : Nat) (h1 : 1 ≤ m) (h : m ≤ m') (h2 : m' ≤ 12) :
    daysBeforeMonth y m ≤ daysBeforeMonth y m' := by
  have he : m' = m + (m' - m) := by omega
  rw [he]
  exact dbm_add y m (m' - m) h1 (by omega)

/-- The day-of-year of a valid date is at most the year's length. -/
theorem doy_le (d : Date) (h : d.Valid) :
    daysBeforeMonth d.year d.month + d.day ≤ 365 + leapN d.year := by
  obtain ⟨h1, h2, h3, h4, h5⟩ := h
  have h12 : daysBeforeMonth d.year 12 = 334 + leapN d.year := rfl
  rcases Nat.lt_or_ge d.month 12 with hm | hm
  · have hs := dbm_succ d.year d.month h2 (by omega)
    have hmono := dbm_le d.year (d.month + 1) 12 (by omega) (by omega) (by omega)
    omega
  · have hm12 : d.month = 12 := by omega
    have hdim : daysInMonth d.year 12 = 31 := rfl
    rw [hm12] at h5 ⊢
    omega

/-- `daysBeforeYear` absorbs the previous year's length. -/
theorem dby_succ (y : Nat) (h : 1 ≤ y) :
    daysBeforeYear (y + 1) = daysBeforeYear y + 365 + leapN y := by
  have e4 : y / 4 = (y - 1) / 4 + (if y % 4 = 0 then 1 else 0) := by
    split <;> omega
  have e100 : y / 100 = (y - 1) / 100 + (if y % 100 = 0 then 1 else 0) := by
    split <;> omega
  have e400 : y / 400 = (y - 1) / 400 + (if y % 400 = 0 then 1 else 0) := by
    split <;> omega
  cases h' : isLeap y with
  | true =>
    have hc : (y % 4 = 0 ∧ y % 100 ≠ 0) ∨ y % 400 = 0 := (isLeap_iff y).mp h'
    have hl : leapN y = 1 := by rw [leapN, h']; rfl
    have h1 : y % 400 = 0 → y % 100 = 0 := by omega
    have h2 : y % 100 = 0 → y % 4 = 0 := by omega
    rw [hl, daysBeforeYear, daysBeforeYear]
    simp only [Nat.add_sub_cancel]
    rcases hc with ⟨hc4, hc100⟩ | hc400
    · rw [e4, e100, e400, if_pos hc4, if_neg hc100]
      by_cases hx : y % 400 = 0
      · exact absurd (h1 hx) hc100
      · rw [if_neg hx]; omega
    · rw [e4, e100, e400, if_pos hc400, if_pos (h1 hc400), if_pos (h2 (h1 hc400))]
      omega
  | false =>
    have hc : ¬((y % 4 = 0 ∧ y % 100 ≠ 0) ∨ y % 400 = 0) := fun c => by
      rw [(isLeap_iff y).mpr c] at h'
      exact Bool.noConfusion h'
    have hl : leapN y = 0 := by rw [leapN, h']; rfl
    push_neg at hc
    obtain ⟨hca, hc400⟩ := hc
    rw [hl, daysBeforeYear, daysBeforeYear]
    simp only [Nat.add_sub_cancel]
    rw [e4, e100, e400, if_neg hc400]
    by_cases hx4 : y % 4 = 0
    · have hx100 : y % 100 = 0 := hca hx4
      rw [if_pos hx4, if_pos hx100]
      omega
    · have hx100 : ¬ y % 100 = 0 := by omega
      rw [if_neg hx4, if_neg hx100]
      omega

/-- `daysBeforeYear` is monotone from a year to any later year. -/
theorem dby_add (y j : Nat) (h : 1 ≤ y) :
    daysBeforeYear y ≤ daysBeforeYear (y + j) := by
  induction j with
  | zero => exact le_refl _
  | succ k ih =>
    have hs := dby_succ (y + k) (by omega)
    have he : y + (k + 1) = (y + k) + 1 := by omega
    rw [he, hs]
    omega

/-- `daysBeforeYear` is monotone. -/
theorem dby_mono (y y' : Nat) (h1 : 1 ≤ y) (h : y ≤ y') :
    daysBeforeYear y ≤ daysBeforeYear y' := by
  have he : y' = y + (y' - y) := by omega
  rw [he]
  exact dby_add y (y' - y) h1

/-- A valid date's ordinal is at least 1. -/
theorem ord_pos (d : Date) (h : d.Valid) : 1 ≤ toOrdinal d := by
  obtain ⟨h1, h2, h3, h4, h5⟩ := h
  unfold toOrdinal
  omega

/-- A date in an earlier year has a smaller ordinal. -/
theorem ord_lt_of_year_lt (a b : Date) (ha : a.Valid) (hb : b.Valid)
    (h : a.year < b.year) : toOrdinal a < toOrdinal b := by
  have hdoy := doy_le a ha
  have hsucc := dby_succ a.year ha.1
  have hmono := dby_mono (a.year + 1) b.year (by omega) (by omega)
  have hday : 1 ≤ b.day := hb.2.2.2.1
  unfold toOrdinal
  omega

/-- `toOrdinal` on an explicit date literal. -/
theorem toOrdinal_mk (y m dd : Nat) :
    toOrdinal ⟨y, m, dd⟩ = daysBeforeYear y + daysBeforeMonth y m + dd := rfl

/-- `Date.Valid` on an explicit date literal. -/
theorem valid_mk (y m dd : Nat) :
    (Date.mk y m dd).Valid ↔
      1 ≤ y ∧ 1 ≤ m ∧ m ≤ 12 ∧ 1 ≤ dd ∧ dd ≤ daysInMonth y m := Iff.rfl

/-- Within one year, an earlier month gives a smaller ordinal. -/
theorem ord_lt_of_month_lt (a b : Date) (ha : a.Valid) (hb : b.Valid)
    (hy : a.year = b.year) (h : a.month < b.month) : toOrdinal a < toOrdinal b := by
  obtain ⟨ha1, ha2, ha3, ha4, ha5⟩ := ha
  obtain ⟨hb1, hb2, hb3, hb4, hb5⟩ := hb
  have hs := dbm_succ a.year a.month ha2 (by omega)
  have hmono := dbm_le a.year (a.month + 1) b.month (by omega) (by omega) hb3
  rw [← hy] at hb5
  unfold toOrdinal
  rw [← hy]
  omega

/-- `toOrdinal` is injective on valid dates. -/
theorem toOrdinal_inj (a b : Date) (ha : a.Valid) (hb : b.Valid)
    (h : toOrdinal a = toOrdinal b) : a = b := by
  have hy : a.year = b.year := by
    rcases Nat.lt_trichotomy a.year b.year with hlt | heq | hgt
    · exact absurd h (Nat.ne_of_lt (ord_lt_of_year_lt a b ha hb hlt))
    · exact heq
    · exact absurd h.symm (Nat.ne_of_lt (ord_lt_of_year_lt b a hb ha hgt))
  have hm : a.month = b.month := by
    rcases Nat.lt_trichotomy a.month b.month with hlt | heq | hgt
    · exact absurd h (Nat.ne_of_lt (ord_lt_of_month_lt a b ha hb hy hlt))
    · exact heq
    · exact absurd h.symm (Nat.ne_of_lt (ord_lt_of_month_lt b a hb ha hy.symm hgt))
  have hd : a.day = b.day := by
    unfold toOrdinal at h
    rw [hy, hm] at h
    omega
  cases a
  cases b
  simp only at hy hm hd
  rw [hy, hm, hd]

/-- Stepping to the next calendar day adds one to the ordinal. -/
theorem toOrdinal_nextDay (d : Date) (h : d.Valid) :
    toOrdinal (nextDay d) = toOrdinal d + 1 := by
  obtain ⟨h1, h2, h3, h4, h5⟩ := h
  unfold nextDay
  by_cases hc1 : d.day < daysInMonth d.year d.month
  · rw [if_pos hc1, toOrdinal_mk]
    unfold toOrdinal
    omega
  · rw [if_neg hc1]
    by_cases hc2 : d.month < 12
    · rw [if_pos hc2, toOrdinal_mk]
      have hs := dbm_succ d.year d.month h2 (by omega)
      unfold toOrdinal
      omega
    · rw [if_neg hc2, toOrdinal_mk]
      have hm12 : d.month = 12 := by omega
      have hdim : daysInMonth d.year 12 = 31 := rfl
      have hdbm : daysBeforeMonth d.year 12 = 334 + leapN d.year := rfl
      have hdbm1 : daysBeforeMonth (d.year + 1) 1 = 0 := rfl
      have hsucc := dby_succ d.year h1
      unfold toOrdinal
      rw [hm12] at h5 hc1 ⊢
      rw [hdim] at h5 hc1
      rw [hdbm1, hdbm]
      omega

/-- The next calendar day of a valid date is valid. -/
theorem nextDay_valid (d : Date) (h : d.Valid) : (nextDay d).Valid := by
  obtain ⟨h1, h2, h3, h4, h5⟩ := h
  unfold nextDay
  by_cases hc1 : d.day < daysInMonth d.year d.month
  · rw [if_pos hc1, valid_mk]
    exact ⟨h1, h2, h3, by omega, by omega⟩
  · rw [if_neg hc1]
    by_cases hc2 : d.month < 12
    · rw [if_pos hc2, valid_mk]
      have hp := daysInMonth_pos d.year (d.month + 1) (by omega) (by omega)
      exact ⟨h1, by omega, by omega, le_refl 1, hp⟩
    · rw [if_neg hc2, valid_mk]
      have hdim : daysInMonth (d.year + 1) 1 = 31 := rfl
      exact ⟨by omega, le_refl 1, by omega, le_refl 1, by rw [hdim]; omega⟩

/-- Stepping to the previous calendar day (for a valid date other than the
epoch) subtracts one from the ordinal and stays valid. -/
theorem prevDay_step (d : Date) (h : d.Valid) (h2 : 2 ≤ toOrdinal d) :
    (prevDay d).Valid ∧ toOrdinal (prevDay d) + 1 = toOrdinal d := by
  obtain ⟨h1, h2m, h3, h4, h5⟩ := h
  unfold prevDay
  by_cases hc1 : 1 < d.day
  · rw [if_pos hc1, valid_mk, toOrdinal_mk]
    refine ⟨⟨h1, h2m, h3, by omega, by omega⟩, ?_⟩
    unfold toOrdinal
    omega
  · rw [if_neg hc1]
    by_cases hc2 : 1 < d.month
    · rw [if_pos hc2, valid_mk, toOrdinal_mk]
      have hs := dbm_succ d.year (d.month - 1) (by omega) (by omega)
      have hme : d.month - 1 + 1 = d.month := by omega
      rw [hme] at hs
      have hp := daysInMonth_pos d.year (d.month - 1) (by omega) (by omega)
      refine ⟨⟨h1, by omega, by omega, hp, le_refl _⟩, ?_⟩
      unfold toOrdinal
      omega
    · rw [if_neg hc2, valid_mk, toOrdinal_mk]
      have hm1 : d.month = 1 := by omega
      have hd1 : d.day = 1 := by
        rw [hm1] at h5
        simp only [daysInMonth] at h5
        omega
      have hdbm1 : daysBeforeMonth d.year 1 = 0 := rfl
      have hy2 : 2 ≤ d.year := by
        by_contra hy
        have hy1 : d.year = 1 := by omega
        unfold toOrdinal at h2
        rw [hy1, hm1, hd1] at h2
        simp only [daysBeforeMonth] at h2
        unfold daysBeforeYear at h2
        omega
      have hdim12 : daysInMonth (d.year - 1) 12 = 31 := rfl
      have hdbm12 : daysBeforeMonth (d.year - 1) 12 = 334 + leapN (d.year - 1) := rfl
      have hsucc := dby_succ (d.year - 1) (by omega)
      have hye : d.year - 1 + 1 = d.year := by omega
      rw [hye] at hsucc
      refine ⟨⟨by omega, by omega, by omega, by omega, by rw [hdim12]⟩, ?_⟩
      unfold toOrdinal
      rw [hdbm12, hm1, hdbm1, hd1]
      omega

/-- Iterating `nextDay` `k` times from a valid date stays valid and adds
`k` to the ordinal. -/
theorem nextDay_iter (s : Date) (hs : s.Valid) (k : Nat) :
    (nextDay^[k] s).Valid ∧ toOrdinal (nextDay^[k] s) = toOrdinal s + k := by
  induction k with
  | zero => exact ⟨hs, rfl⟩
  | succ n ih =>
    rw [Function.iterate_succ_apply']
    refine ⟨nextDay_valid _ ih.1, ?_⟩
    rw [toOrdinal_nextDay _ ih.1, ih.2]
    omega

/-- Iterating `prevDay` `k` times from a valid date of ordinal at least
`k + 1` stays valid and subtracts `k` from the ordinal. -/
theorem prevDay_iter (s : Date) (hs : s.Valid) (k : Nat) (h : k + 1 ≤ toOrdinal s) :
    (prevDay^[k] s).Valid ∧ toOrdinal (prevDay^[k] s) + k = toOrdinal s := by
  induction k with
  | zero => exact ⟨hs, rfl⟩
  | succ n ih =>
    obtain ⟨ihv, iho⟩ := ih (by omega)
    rw [Function.iterate_succ_apply']
    obtain ⟨hv, ho⟩ := prevDay_step _ ihv (by omega)
    exact ⟨hv, by omega⟩

/-- From a valid date, iterating `nextDay` by the ordinal difference
reaches any valid later-or-equal date. -/
theorem nextDay_reach (s e : Date) (hs : s.Valid) (he : e.Valid)
    (h : toOrdinal s ≤ toOrdinal e) : nextDay^[toOrdinal e - toOrdinal s] s = e := by
  obtain ⟨hv, ho⟩ := nextDay_iter s hs (toOrdinal e - toOrdinal s)
  exact toOrdinal_inj _ _ hv he (by omega)

/-- The year is monotone in the ordinal over valid dates. -/
theorem year_le_of_ord_le (a b : Date) (ha : a.Valid) (hb : b.Valid)
    (h : toOrdinal a ≤ toOrdinal b) : a.year ≤ b.year := by
  by_contra hy
  exact absurd (ord_lt_of_year_lt b a hb ha (by omega)) (by omega)

/-- A digit character's value is at most 9. -/
theorem digitVal_le (c : Char) (h : isDig c = true) : digitVal c ≤ 9 := by
  unfold isDig at h
  simp only [Bool.and_eq_true, decide_eq_true_eq] at h
  unfold digitVal
  omega

/-- The year read by `parseYMD` comes from four digits, so is at most 9999. -/
theorem parseYMD_year_le (cs : List Char) (y m dd : Nat)
    (h : parseYMD cs = some (y, m, dd)) : y ≤ 9999 := by
  unfold parseYMD at h
  split at h
  · rename_i a b c d rest
    split at h
    · rename_i hdig
      simp only [Bool.and_eq_true] at hdig
      obtain ⟨⟨⟨hda, hdb⟩, hdc⟩, hdd⟩ := hdig
      have ha := digitVal_le a hda
      have hb := digitVal_le b hdb
      have hc := digitVal_le c hdc
      have hd := digitVal_le d hdd
      split at h
      · split at h
        · rename_i m' rest2 dd' heq2
          simp only [Option.some.injEq, Prod.mk.injEq] at h
          omega
        · exact absurd h (by simp)
      · exact absurd h (by simp)
    · exact absurd h (by simp)
  · exact absurd h (by simp)

/-- A successfully parsed date is a valid calendar date with a
four-digit year. -/
theorem parseDate_valid (s : String) (d : Date) (h : parseDate s = some d) :
    d.Valid ∧ d.year ≤ 9999 := by
  unfold parseDate at h
  split at h
  · rename_i y m dd heq
    split at h
    · rename_i hcond
      simp only [Option.some.injEq] at h
      rw [← h]
      exact ⟨hcond, parseYMD_year_le _ _ _ _ heq⟩
    · exact absurd h (by simp)
  · exact absurd h (by simp)

/-- `digitChar` of a digit is a digit character. -/
theorem digitChar_isDig (n : Nat) (h : n ≤ 9) : isDig (digitChar n) = true := by
  interval_cases n <;> decide

/-- `digitVal` inverts `digitChar` on digits. -/
theorem digitVal_digitChar (n : Nat) (h : n ≤ 9) : digitVal (digitChar n) = n := by
  interval_cases n <;> decide

/-- The month field parses the two zero-padded digits `strftime` emits. -/
theorem parseMonth_format2 (m : Nat) (h1 : 1 ≤ m) (h2 : m ≤ 12) (t : List Char) :
    parseMonth (format2 m ++ '-' :: t) = some (m, t) := by
  interval_cases m <;> rfl

/-- The day field parses the two zero-padded digits `strftime` emits. -/
theorem parseDay_format2 (n : Nat) (h1 : 1 ≤ n) (h2 : n ≤ 31) :
    parseDay (format2 n) = some n := by
  interval_cases n <;> rfl

/-- Parsing inverts formatting on valid dates (the format of every date the
handler ever formats, since parsed dates have four-digit years and
year 9999 is never exceeded within a parsed range). -/
theorem parseDate_formatDate (d : Date) (h : d.Valid) (h9 : d.year ≤ 9999) :
    parseDate (formatDate d) = some d := by
  obtain ⟨h1, h2, h3, h4, h5⟩ := h
  have h31 := valid_day_le_31 d ⟨h1, h2, h3, h4, h5⟩
  have hdata : (formatDate d).data
      = format4 d.year ++ '-' :: format2 d.month ++ '-' :: format2 d.day := rfl
  unfold parseDate
  rw [hdata]
  unfold format4
  simp only [List.cons_append, List.nil_append]
  have ha := digitChar_isDig (d.year / 1000 % 10) (by omega)
  have hb := digitChar_isDig (d.year / 100 % 10) (by omega)
  have hc := digitChar_isDig (d.year / 10 % 10) (by omega)
  have hd := digitChar_isDig (d.year % 10) (by omega)
  simp only [parseYMD, ha, hb, hc, hd, Bool.and_self, if_true,
    parseMonth_format2 d.month h2 h3, parseDay_format2 d.day h4 h31,
    digitVal_digitChar (d.year / 1000 % 10) (by omega),
    digitVal_digitChar (d.year / 100 % 10) (by omega),
    digitVal_digitChar (d.year / 10 % 10) (by omega),
    digitVal_digitChar (d.year % 10) (by omega)]
  have hY : ((d.year / 1000 % 10 * 10 + d.year / 100 % 10) * 10 + d.year / 10 % 10) * 10
      + d.year % 10 = d.year := by omega
  rw [hY]
  rw [if_pos ⟨h1, h2, h3, h4, h5⟩]

/-- `user_i` ids are distinct across the 40 node indices. -/
theorem userId_inj40 : ∀ a b : Fin 40, userId a.val = userId b.val → a = b := by decide

/-- When both dates parse, the handler returns the assembled response. -/
theorem get_dashboard_eq_ok (fs ts : String) (pq : Option String) (today : Date) (g : RNG)
    (s e : Date) (hs : parseDate fs = some s) (he : parseDate ts = some e) :
    get_dashboard (some fs) (some ts) pq today g
      = Except.ok (buildResponse s e fs ts (pq.getD "twitter") g) := by
  unfold get_dashboard
  simp only [Option.getD_some, hs, he]

/-- A concrete random source used to instantiate theorems: all uniform
draws 0, all degrees 1, all sampled pairs (0, 1). -/
def rng0 : RNG :=
  ⟨fun _ => 0, fun _ => 0, fun _ => 0, fun _ => 0, fun _ => 1, fun _ => 0,
    fun _ => (0, 1), fun _ => 0⟩

/-- `rng0` satisfies the `random`-module guarantees. -/
theorem rng0_valid : rng0.Valid :=
  ⟨fun _ => ⟨le_refl 0, zero_lt_one⟩, fun _ => ⟨le_refl 0, zero_lt_one⟩,
    fun _ => ⟨le_refl 0, zero_lt_one⟩, fun _ => ⟨le_refl 0, zero_lt_one⟩,
    fun _ => ⟨Nat.le_refl 1, show (1 : Nat) ≤ 10 by decide⟩,
    fun _ => ⟨le_refl 0, zero_lt_one⟩,
    fun _ => ⟨show (0 : Nat) < 40 by decide, show (1 : Nat) < 40 by decide,
      show (0 : Nat) ≠ 1 by decide⟩,
    fun _ => ⟨le_refl 0, zero_lt_one⟩⟩

/-- A concrete response used by witnesses below. -/
noncomputable def respA : Response :=
  buildResponse ⟨2024, 1, 1⟩ ⟨2024, 1, 2⟩ "2024-01-01" "2024-01-02" "twitter" rng0

/-- The handler applied to fixed inputs producing `respA`. -/
theorem respA_eq :
    get_dashboard (some "2024-01-01") (some "2024-01-02") none ⟨2024, 5, 15⟩ rng0
      = Except.ok respA :=
  get_dashboard_eq_ok "2024-01-01" "2024-01-02" none ⟨2024, 5, 15⟩ rng0
    ⟨2024, 1, 1⟩ ⟨2024, 1, 2⟩ (by decide) (by decide)

/-- C8: for every request (whatever `from`, `to`, `platform` resolve to),
the returned `topics` is the fixed 4-entry static list and `emotions` the
fixed 5-entry static list; neither depends on the date range or platform. -/
theorem topics_emotions_static (fromQ toQ platformQ : Option String) (today : Date)
    (g : RNG) (r : Response) (h : get_dashboard fromQ toQ platformQ today g = Except.ok r) :
    r.topics = staticTopics ∧ r.topics.length = 4 ∧
      r.emotions = staticEmotions ∧ r.emotions.length = 5 := by
  simp only [get_dashboard] at h
  split at h
  · exact absurd h (by simp)
  · split at h
    · exact absurd h (by simp)
    · simp only [Except.ok.injEq] at h
      rw [← h]
      exact ⟨rfl, rfl, rfl, rfl⟩

/-- Witness for C8 at a concrete request. -/
theorem topics_emotions_static_witness :
    get_dashboard (some "2024-01-01") (some "2024-01-02") none ⟨2024, 5, 15⟩ rng0
        = Except.ok respA ∧
      (respA.topics = staticTopics ∧ respA.topics.length = 4 ∧
        respA.emotions = staticEmotions ∧ respA.emotions.length = 5) :=
  ⟨respA_eq, topics_emotions_static _ _ _ _ _ _ respA_eq⟩

/-- C9: the `meta` object echoes the resolved parameters exactly — the
supplied query value when present, the default otherwise. -/
theorem meta_echoes_params (fromQ toQ platformQ : Option String) (today : Date)
    (g : RNG) (r : Response) (h : get_dashboard fromQ toQ platformQ today g = Except.ok r) :
    r.meta.fromDate = fromQ.getD (formatDate (prevDay^[30] today)) ∧
      r.meta.toDate = toQ.getD (formatDate today) ∧
      r.meta.platform = platformQ.getD "twitter" := by
  simp only [get_dashboard] at h
  split at h
  · exact absurd h (by simp)
  · split at h
    · exact absurd h (by simp)
    · simp only [Except.ok.injEq] at h
      rw [← h]
      exact ⟨rfl, rfl, rfl⟩

/-- Witness for C9 at a concrete request. -/
theorem meta_echoes_params_witness :
    get_dashboard (some "2024-01-01") (some "2024-01-02") none ⟨2024, 5, 15⟩ rng0
        = Except.ok respA ∧
      (respA.meta.fromDate
          = (some "2024-01-01").getD (formatDate (prevDay^[30] (⟨2024, 5, 15⟩ : Date))) ∧
        respA.meta.toDate = (some "2024-01-02").getD (formatDate (⟨2024, 5, 15⟩ : Date)) ∧
        respA.meta.platform = (none : Option String).getD "twitter") :=
  ⟨respA_eq, meta_echoes_params _ _ _ _ _ _ respA_eq⟩

/-- Everything in a response except `meta.platform`. -/
def stripPlatform (r : Response) :
    List TimeSeriesPoint × List TopicTrend × List EmotionShare × Graph × String × String :=
  (r.timeSeries, r.topics, r.emotions, r.graph, r.meta.fromDate, r.meta.toDate)

/-- C10: with the same `from`/`to`, the same clock reading and the same
random draws, two requests differing only in `platform` produce responses
identical outside `meta.platform` (and they fail together when a date is
malformed): the platform parameter influences nothing else. -/
theorem platform_noninterference (fromQ toQ : Option String) (p1 p2 : String)
    (today : Date) (g : RNG) :
    Except.map stripPlatform (get_dashboard fromQ toQ (some p1) today g)
      = Except.map stripPlatform (get_dashboard fromQ toQ (some p2) today g) := by
  unfold get_dashboard
  simp only [Option.getD_some]
  cases hp : parseDate (fromQ.getD (formatDate (prevDay^[30] today))) with
  | none => rfl
  | some s =>
    cases hq : parseDate (toQ.getD (formatDate today)) with
    | none => rfl
    | some e => rfl

/-- C4: a supplied `from` or `to` that does not match `%Y-%m-%d` makes the
handler fail with the propagating `ValueError` (Flask's generic server
error); no response object is produced. -/
theorem malformed_date_error (fromQ toQ platformQ : Option String) (today : Date) (g : RNG)
    (h : (∃ fs, fromQ = some fs ∧ parseDate fs = none)
       ∨ (∃ ts, toQ = some ts ∧ parseDate ts = none)) :
    ∃ msg, get_dashboard fromQ toQ platformQ today g = Except.error msg := by
  unfold get_dashboard
  rcases h with ⟨fs, hfq, hn⟩ | ⟨ts, htq, hn⟩
  · rw [hfq]
    simp only [Option.getD_some, hn]
    exact ⟨_, rfl⟩
  · rw [htq]
    simp only [Option.getD_some]
    cases hp : parseDate (fromQ.getD (formatDate (prevDay^[30] today))) with
    | none => exact ⟨_, rfl⟩
    | some s =>
      simp only [hn]
      exact ⟨_, rfl⟩

/-- Witness for C4 at a concrete malformed request. -/
theorem malformed_date_error_witness :
    parseDate "2024-13-01" = none ∧
      ∃ msg, get_dashboard (some "2024-13-01") none none ⟨2024, 5, 15⟩ rng0
        = Except.error msg :=
  ⟨by decide,
    malformed_date_error (some "2024-13-01") none none ⟨2024, 5, 15⟩ rng0
      (Or.inl ⟨"2024-13-01", rfl, by decide⟩)⟩

/-- C5: with valid dates and `to` earlier than `from`, the day count
`(to - from).days + 1` is non-positive, the loop body never runs, and the
handler still succeeds with an empty `timeSeries`. -/
theorem reversed_range_empty (fs ts : String) (pq : Option String) (today : Date) (g : RNG)
    (s e : Date) (hs : parseDate fs = some s) (he : parseDate ts = some e)
    (hlt : toOrdinal e < toOrdinal s) :
    ((toOrdinal e : ℤ) - (toOrdinal s : ℤ) + 1 ≤ 0) ∧
      ∃ r, get_dashboard (some fs) (some ts) pq today g = Except.ok r ∧ r.timeSeries = [] := by
  refine ⟨by omega, _, get_dashboard_eq_ok fs ts pq today g s e hs he, ?_⟩
  show (List.range ((toOrdinal e : ℤ) - (toOrdinal s : ℤ) + 1).toNat).map (mkPoint s g) = []
  have hz : ((toOrdinal e : ℤ) - (toOrdinal s : ℤ) + 1).toNat = 0 := by omega
  rw [hz]
  rfl

/-- Witness for C5 at a concrete reversed range. -/
theorem reversed_range_empty_witness :
    parseDate "2024-02-10" = some ⟨2024, 2, 10⟩ ∧
      parseDate "2024-02-01" = some ⟨2024, 2, 1⟩ ∧
      toOrdinal ⟨2024, 2, 1⟩ < toOrdinal ⟨2024, 2, 10⟩ ∧
      (((toOrdinal (⟨2024, 2, 1⟩ : Date) : ℤ) - (toOrdinal (⟨2024, 2, 10⟩ : Date) : ℤ) + 1 ≤ 0) ∧
        ∃ r, get_dashboard (some "2024-02-10") (some "2024-02-01") none ⟨2024, 5, 15⟩ rng0
            = Except.ok r ∧ r.timeSeries = []) :=
  ⟨by decide, by decide, by decide,
    reversed_range_empty "2024-02-10" "2024-02-01" none ⟨2024, 5, 15⟩ rng0
      ⟨2024, 2, 10⟩ ⟨2024, 2, 1⟩ (by decide) (by decide) (by decide)⟩

/-- A successful response is the assembled `buildResponse` of the two
parsed resolved dates. -/
theorem get_dashboard_ok_build (fromQ toQ platformQ : Option String) (today : Date)
    (g : RNG) (r : Response) (h : get_dashboard fromQ toQ platformQ today g = Except.ok r) :
    ∃ s e, parseDate (fromQ.getD (formatDate (prevDay^[30] today))) = some s ∧
      parseDate (toQ.getD (formatDate today)) = some e ∧
      r = buildResponse s e (fromQ.getD (formatDate (prevDay^[30] today)))
        (toQ.getD (formatDate today)) (platformQ.getD "twitter") g := by
  simp only [get_dashboard] at h
  split at h
  · exact absurd h (by simp)
  · rename_i s hs
    split at h
    · exact absurd h (by simp)
    · rename_i e he
      simp only [Except.ok.injEq] at h
      exact ⟨s, e, hs, he, h.symm⟩

/-- The clamped emotion formula `max(0, (t + u*0.6)/2)` stays in `[0, 0.8]`
whenever the cyclic part is at most 1 and the draw lies in `[0, 1)`. -/
theorem emotion_formula_bounds (t u : ℝ) (ht : t ≤ 1) (h0 : 0 ≤ u) (h1 : u < 1) :
    0 ≤ max 0 ((t + u * 0.6) / 2) ∧ max 0 ((t + u * 0.6) / 2) ≤ 0.8 := by
  refine ⟨le_max_left _ _, max_le (by norm_num) ?_⟩
  nlinarith

/-- C6: every generated `anxiety`, `sadness` and `joy` value lies in
`[0, (1 + 0.6)/2] = [0, 0.8]`, whatever the day offset and the uniform
draws. -/
theorem emotion_values_bounded (fromQ toQ platformQ : Option String) (today : Date)
    (g : RNG) (r : Response) (hg : g.Valid)
    (h : get_dashboard fromQ toQ platformQ today g = Except.ok r) :
    ∀ p ∈ r.timeSeries,
      (0 ≤ p.anxiety ∧ p.anxiety ≤ 0.8) ∧ (0 ≤ p.sadness ∧ p.sadness ≤ 0.8) ∧
        (0 ≤ p.joy ∧ p.joy ≤ 0.8) := by
  obtain ⟨s, e, hs, he, hr⟩ := get_dashboard_ok_build _ _ _ _ _ _ h
  intro p hp
  rw [hr] at hp
  unfold buildResponse at hp
  simp only [List.mem_map, List.mem_range] at hp
  obtain ⟨i, hi, hpi⟩ := hp
  rw [← hpi]
  unfold mkPoint
  simp only
  exact ⟨emotion_formula_bounds _ _ (Real.sin_le_one _) (hg.2.1 i).1 (hg.2.1 i).2,
    emotion_formula_bounds _ _ (Real.cos_le_one _) (hg.2.2.1 i).1 (hg.2.2.1 i).2,
    emotion_formula_bounds _ _ (Real.cos_le_one _) (hg.2.2.2.1 i).1 (hg.2.2.2.1 i).2⟩

/-- Witness for C6 at a concrete request and random source. -/
theorem emotion_values_bounded_witness :
    rng0.Valid ∧
      get_dashboard (some "2024-01-01") (some "2024-01-02") none ⟨2024, 5, 15⟩ rng0
        = Except.ok respA ∧
      ∀ p ∈ respA.timeSeries,
        (0 ≤ p.anxiety ∧ p.anxiety ≤ 0.8) ∧ (0 ≤ p.sadness ∧ p.sadness ≤ 0.8) ∧
          (0 ≤ p.joy ∧ p.joy ≤ 0.8) :=
  ⟨rng0_valid, respA_eq,
    emotion_values_bounded _ _ _ _ _ _ rng0_valid respA_eq⟩

/-- Python `round` of a real at least `n` is at least `n`. -/
theorem pyRound_ge (x : ℝ) (n : ℤ) (h : (n : ℝ) ≤ x) : n ≤ pyRound x := by
  have hf : n ≤ ⌊x⌋ := Int.le_floor.mpr h
  unfold pyRound
  split
  · exact hf
  · split
    · omega
    · split
      · exact hf
      · omega

/-- C7: every generated `count` is a non-negative integer — indeed at least
160, since `200 + 40*sin ≥ 160` and the noise `U*60` is non-negative; no
clamping is involved. -/
theorem count_nonneg (fromQ toQ platformQ : Option String) (today : Date)
    (g : RNG) (r : Response) (hg : g.Valid)
    (h : get_dashboard fromQ toQ platformQ today g = Except.ok r) :
    ∀ p ∈ r.timeSeries, 0 ≤ p.count ∧ 160 ≤ p.count := by
  obtain ⟨s, e, hs, he, hr⟩ := get_dashboard_ok_build _ _ _ _ _ _ h
  intro p hp
  rw [hr] at hp
  unfold buildResponse at hp
  simp only [List.mem_map, List.mem_range] at hp
  obtain ⟨i, hi, hpi⟩ := hp
  rw [← hpi]
  unfold mkPoint
  simp only
  have hsin := Real.neg_one_le_sin ((i : ℝ) / 6)
  have hu := hg.1 i
  have h160 : ((160 : ℤ) : ℝ) ≤ 200 + 40 * Real.sin ((i : ℝ) / 6) + g.uBase i * 60 := by
    push_cast
    nlinarith [hu.1]
  have := pyRound_ge _ _ h160
  exact ⟨by omega, this⟩

/-- Witness for C7 at a concrete request and random source. -/
theorem count_nonneg_witness :
    rng0.Valid ∧
      get_dashboard (some "2024-01-01") (some "2024-01-02") none ⟨2024, 5, 15⟩ rng0
        = Except.ok respA ∧
      ∀ p ∈ respA.timeSeries, 0 ≤ p.count ∧ 160 ≤ p.count :=
  ⟨rng0_valid, respA_eq, count_nonneg _ _ _ _ _ _ rng0_valid respA_eq⟩

/-- C2: the graph always has exactly 40 nodes and 80 edges; node degrees
lie in `[1, 10]` and sentiments in `[-0.8, 0.8]`; every edge joins two
existing, distinct node ids and carries a weight in `[0, 1)`. -/
theorem graph_shape_and_bounds (fromQ toQ platformQ : Option String) (today : Date)
    (g : RNG) (r : Response) (hg : g.Valid)
    (h : get_dashboard fromQ toQ platformQ today g = Except.ok r) :
    r.graph.nodes.length = 40 ∧ r.graph.links.length = 80 ∧
      (∀ nd ∈ r.graph.nodes,
        1 ≤ nd.deg ∧ nd.deg ≤ 10 ∧ -(0.8 : ℝ) ≤ nd.sentiment ∧ nd.sentiment ≤ 0.8) ∧
      (∀ l ∈ r.graph.links,
        (∃ nd ∈ r.graph.nodes, nd.id = l.source) ∧
          (∃ nd ∈ r.graph.nodes, nd.id = l.target) ∧
          l.source ≠ l.target ∧ (0 : ℝ) ≤ l.value ∧ l.value < 1) := by
  obtain ⟨s, e, hs, he, hr⟩ := get_dashboard_ok_build _ _ _ _ _ _ h
  subst hr
  unfold buildResponse
  simp only
  refine ⟨by simp, by simp, ?_, ?_⟩
  · intro nd hnd
    simp only [List.mem_map, List.mem_range] at hnd
    obtain ⟨i, hi, hni⟩ := hnd
    rw [← hni]
    unfold mkNode
    simp only
    have hu := hg.2.2.2.2.2.1 i
    refine ⟨(hg.2.2.2.2.1 i).1, (hg.2.2.2.2.1 i).2, ?_, ?_⟩
    · nlinarith [hu.1]
    · nlinarith [hu.2]
  · intro l hl
    simp only [List.mem_map, List.mem_range] at hl
    obtain ⟨i, hi, hli⟩ := hl
    rw [← hli]
    unfold mkLink
    simp only
    obtain ⟨hp1, hp2, hpne⟩ := hg.2.2.2.2.2.2.1 i
    have hue := hg.2.2.2.2.2.2.2 i
    refine ⟨?_, ?_, ?_, hue.1, hue.2⟩
    · refine ⟨mkNode g (g.pair i).1, ?_, rfl⟩
      simp only [List.mem_map, List.mem_range]
      exact ⟨(g.pair i).1, hp1, rfl⟩
    · refine ⟨mkNode g (g.pair i).2, ?_, rfl⟩
      simp only [List.mem_map, List.mem_range]
      exact ⟨(g.pair i).2, hp2, rfl⟩
    · intro hcontra
      have := userId_inj40 ⟨(g.pair i).1, hp1⟩ ⟨(g.pair i).2, hp2⟩ hcontra
      exact hpne (congrArg Fin.val this)

/-- Witness for C2 at a concrete request and random source. -/
theorem graph_shape_and_bounds_witness :
    rng0.Valid ∧
      get_dashboard (some "2024-01-01") (some "2024-01-02") none ⟨2024, 5, 15⟩ rng0
        = Except.ok respA ∧
      (respA.graph.nodes.length = 40 ∧ respA.graph.links.length = 80 ∧
        (∀ nd ∈ respA.graph.nodes,
          1 ≤ nd.deg ∧ nd.deg ≤ 10 ∧ -(0.8 : ℝ) ≤ nd.sentiment ∧ nd.sentiment ≤ 0.8) ∧
        (∀ l ∈ respA.graph.links,
          (∃ nd ∈ respA.graph.nodes, nd.id = l.source) ∧
            (∃ nd ∈ respA.graph.nodes, nd.id = l.target) ∧
            l.source ≠ l.target ∧ (0 : ℝ) ≤ l.value ∧ l.value < 1)) :=
  ⟨rng0_valid, respA_eq, graph_shape_and_bounds _ _ _ _ _ _ rng0_valid respA_eq⟩

/-- The time series of an assembled response, unfolded. -/
theorem buildResponse_timeSeries (s e : Date) (a b p : String) (g : RNG) :
    (buildResponse s e a b p g).timeSeries
      = (List.range ((toOrdinal e : ℤ) - (toOrdinal s : ℤ) + 1).toNat).map (mkPoint s g) := rfl

/-- The date string of the point generated for offset `i`. -/
theorem mkPoint_date (s : Date) (g : RNG) (i : Nat) :
    (mkPoint s g i).date = formatDate (nextDay^[i] s) := rfl

/-- C3: omitting all three query parameters yields a 31-point series whose
last point is dated today, with the default platform label. (`today` is the
clock reading; a year from 2 to 9999 covers every date the running system
can observe.) -/
theorem default_request_31_days (today : Date) (g : RNG)
    (hv : today.Valid) (hy1 : 2 ≤ today.year) (hy2 : today.year ≤ 9999) :
    ∃ r, get_dashboard none none none today g = Except.ok r ∧
      r.timeSeries.length = 31 ∧
      r.timeSeries.getLast?.map TimeSeriesPoint.date = some (formatDate today) ∧
      r.meta.platform = "twitter" := by
  have hdby2 : daysBeforeYear 2 = 365 := rfl
  have hord : 32 ≤ toOrdinal today := by
    have hmono := dby_mono 2 today.year (by omega) hy1
    have hday : 1 ≤ today.day := hv.2.2.2.1
    unfold toOrdinal
    omega
  obtain ⟨hpv, hpo⟩ := prevDay_iter today hv 30 (by omega)
  have hpy : (prevDay^[30] today).year ≤ 9999 :=
    le_trans (year_le_of_ord_le _ _ hpv hv (by omega)) hy2
  have hps : parseDate (formatDate (prevDay^[30] today)) = some (prevDay^[30] today) :=
    parseDate_formatDate _ hpv hpy
  have hpt : parseDate (formatDate today) = some today := parseDate_formatDate _ hv hy2
  have hok : get_dashboard none none none today g
      = Except.ok (buildResponse (prevDay^[30] today) today
          (formatDate (prevDay^[30] today)) (formatDate today) "twitter" g) := by
    unfold get_dashboard
    simp only [Option.getD_none, hps, hpt]
  refine ⟨_, hok, ?_, ?_, rfl⟩
  · rw [buildResponse_timeSeries]
    have hn : ((toOrdinal today : ℤ) - (toOrdinal (prevDay^[30] today) : ℤ) + 1).toNat
        = 31 := by omega
    rw [hn]
    simp
  · rw [buildResponse_timeSeries]
    have hn : ((toOrdinal today : ℤ) - (toOrdinal (prevDay^[30] today) : ℤ) + 1).toNat
        = 31 := by omega
    rw [hn]
    have hreach : nextDay^[30] (prevDay^[30] today) = today := by
      have h30 : toOrdinal today - toOrdinal (prevDay^[30] today) = 30 := by omega
      have := nextDay_reach (prevDay^[30] today) today hpv hv (by omega)
      rw [h30] at this
      exact this
    have hsplit : List.range 31 = List.range 30 ++ [30] := by decide
    rw [hsplit, List.map_append, List.map_cons, List.map_nil, List.getLast?_concat]
    simp only [Option.map_some', mkPoint_date, hreach]

/-- Witness for C3 at a concrete clock reading. -/
theorem default_request_31_days_witness :
    (Date.Valid ⟨2024, 5, 15⟩ ∧ 2 ≤ (2024 : Nat) ∧ (2024 : Nat) ≤ 9999) ∧
      ∃ r, get_dashboard none none none ⟨2024, 5, 15⟩ rng0 = Except.ok r ∧
        r.timeSeries.length = 31 ∧
        r.timeSeries.getLast?.map TimeSeriesPoint.date
          = some (formatDate ⟨2024, 5, 15⟩) ∧
        r.meta.platform = "twitter" :=
  ⟨⟨by decide, by decide, by decide⟩,
    default_request_31_days ⟨2024, 5, 15⟩ rng0 (by decide) (by decide) (by decide)⟩

/-- C1 (amended: `from ≤ to`): with both dates valid and in order, the
series has exactly `(to - from).days + 1` points, and its date strings
parse back to a run of calendar days that starts at `from`, ends at `to`,
and in which each date is the calendar successor of the previous one
(contiguous and strictly ascending). -/
theorem timeSeries_contiguous_run (fs ts : String) (pq : Option String) (today : Date)
    (g : RNG) (s e : Date) (hs : parseDate fs = some s) (he : parseDate ts = some e)
    (hle : toOrdinal s ≤ toOrdinal e) :
    ∃ r run, get_dashboard (some fs) (some ts) pq today g = Except.ok r ∧
      (r.timeSeries.length : ℤ) = (toOrdinal e : ℤ) - (toOrdinal s : ℤ) + 1 ∧
      r.timeSeries.map (fun p => parseDate p.date) = run.map some ∧
      run.head? = some s ∧
      run.getLast? = some e ∧
      List.Chain' (fun a b => b = nextDay a ∧ toOrdinal b = toOrdinal a + 1) run := by
  obtain ⟨hsv, hsy⟩ := parseDate_valid _ _ hs
  obtain ⟨hev, hey⟩ := parseDate_valid _ _ he
  have hn : ((toOrdinal e : ℤ) - (toOrdinal s : ℤ) + 1).toNat
      = (toOrdinal e - toOrdinal s) + 1 := by omega
  refine ⟨_, (List.range ((toOrdinal e - toOrdinal s) + 1)).map (fun i => nextDay^[i] s),
    get_dashboard_eq_ok fs ts pq today g s e hs he, ?_, ?_, ?_, ?_, ?_⟩
  · rw [buildResponse_timeSeries, List.length_map, List.length_range]
    omega
  · rw [buildResponse_timeSeries, hn, List.map_map, List.map_map]
    apply List.map_congr_left
    intro i hi
    simp only [List.mem_range] at hi
    obtain ⟨hv, ho⟩ := nextDay_iter s hsv i
    have hyle : (nextDay^[i] s).year ≤ e.year :=
      year_le_of_ord_le _ _ hv hev (by omega)
    show parseDate ((mkPoint s g i).date) = some (nextDay^[i] s)
    rw [mkPoint_date]
    exact parseDate_formatDate _ hv (by omega)
  · rw [List.range_succ_eq_map, List.map_cons, List.head?_cons,
      Function.iterate_zero_apply]
  · rw [List.range_succ, List.map_append, List.map_cons, List.map_nil,
      List.getLast?_concat]
    rw [nextDay_reach s e hsv hev hle]
  · rw [List.chain'_map, List.chain'_range_succ]
    intro m hm
    simp only [Nat.succ_eq_add_one]
    obtain ⟨hmv, hmo⟩ := nextDay_iter s hsv m
    obtain ⟨hmv1, hmo1⟩ := nextDay_iter s hsv (m + 1)
    exact ⟨Function.iterate_succ_apply' nextDay m s, by omega⟩

/-- Witness for the amended C1 at a concrete in-order range. -/
theorem timeSeries_contiguous_run_witness :
    (parseDate "2024-01-01" = some ⟨2024, 1, 1⟩ ∧
      parseDate "2024-01-03" = some ⟨2024, 1, 3⟩ ∧
      toOrdinal ⟨2024, 1, 1⟩ ≤ toOrdinal ⟨2024, 1, 3⟩) ∧
      ∃ r run,
        get_dashboard (some "2024-01-01") (some "2024-01-03") none ⟨2024, 5, 15⟩ rng0
          = Except.ok r ∧
        (r.timeSeries.length : ℤ)
          = (toOrdinal (⟨2024, 1, 3⟩ : Date) : ℤ) - (toOrdinal (⟨2024, 1, 1⟩ : Date) : ℤ) + 1 ∧
        r.timeSeries.map (fun p => parseDate p.date) = run.map some ∧
        run.head? = some ⟨2024, 1, 1⟩ ∧
        run.getLast? = some ⟨2024, 1, 3⟩ ∧
        List.Chain' (fun a b => b = nextDay a ∧ toOrdinal b = toOrdinal a + 1) run :=
  ⟨⟨by decide, by decide, by decide⟩,
    timeSeries_contiguous_run "2024-01-01" "2024-01-03" none ⟨2024, 5, 15⟩ rng0
      ⟨2024, 1, 1⟩ ⟨2024, 1, 3⟩ (by decide) (by decide) (by decide)⟩

/-- Counterexample to C1 as stated: with the valid dates
`from = 2024-01-03`, `to = 2024-01-01` (out of order), the handler returns
a 0-point series while `(to - from in days) + 1 = -1`, so the series does
not have `(to - from) + 1` points and its dates cannot run from `from` to
`to`. -/
theorem timeSeries_run_counterexample :
    parseDate "2024-01-03" = some ⟨2024, 1, 3⟩ ∧
      parseDate "2024-01-01" = some ⟨2024, 1, 1⟩ ∧
      (toOrdinal (⟨2024, 1, 1⟩ : Date) : ℤ) - (toOrdinal (⟨2024, 1, 3⟩ : Date) : ℤ) + 1
        = -1 ∧
      ∃ r, get_dashboard (some "2024-01-03") (some "2024-01-01") none ⟨2024, 5, 15⟩ rng0
          = Except.ok r ∧
        r.timeSeries.length = 0 ∧
        (r.timeSeries.length : ℤ)
          ≠ (toOrdinal (⟨2024, 1, 1⟩ : Date) : ℤ) - (toOrdinal (⟨2024, 1, 3⟩ : Date) : ℤ)
            + 1 := by
  refine ⟨by decide, by decide, by decide,
    _, get_dashboard_eq_ok "2024-01-03" "2024-01-01" none ⟨2024, 5, 15⟩ rng0
        ⟨2024, 1, 3⟩ ⟨2024, 1, 1⟩ (by decide) (by decide), ?_, ?_⟩
  · rw [buildResponse_timeSeries]
    have hz : ((toOrdinal (⟨2024, 1, 1⟩ : Date) : ℤ)
        - (toOrdinal (⟨2024, 1, 3⟩ : Date) : ℤ) + 1).toNat = 0 := by decide
    rw [hz]
    rfl
  · rw [buildResponse_timeSeries]
    have hz : ((toOrdinal (⟨2024, 1, 1⟩ : Date) : ℤ)
        - (toOrdinal (⟨2024, 1, 3⟩ : Date) : ℤ) + 1).toNat = 0 := by decide
    rw [hz]
    decide
